import Mathlib

set_option maxRecDepth 8000

/-!
Shallow embedding of `src/server.js`, an Express application consisting of a
public gateway (`GET /api/fetch`) guarded by a naive substring blacklist, an
outbound fetch pipeline with body truncation, and an internal loopback-only
listener exposing a secret flag.  JavaScript strings are modelled as Lean
`String`s (one `Char` per UTF-16 unit of the inputs considered), the
environment as an explicit record, and the outcome of the outbound
`node-fetch` call as an explicit `FetchOutcome` value passed to the handler.
-/

/-- The WhiteSpace and LineTerminator code points of ECMA-262, the set removed
from both ends by `String.prototype.trim` (used at line 72 of the source). -/
def jsWhitespace (c : Char) : Bool :=
  c.toNat = 0x9 || c.toNat = 0xA || c.toNat = 0xB || c.toNat = 0xC || c.toNat = 0xD ||
  c.toNat = 0x20 || c.toNat = 0xA0 || c.toNat = 0x1680 ||
  (0x2000 ≤ c.toNat && c.toNat ≤ 0x200A) ||
  c.toNat = 0x2028 || c.toNat = 0x2029 || c.toNat = 0x202F || c.toNat = 0x205F ||
  c.toNat = 0x3000 || c.toNat = 0xFEFF

/-- `String.prototype.trim` on character lists: drop leading and trailing
whitespace. -/
def trimChars (l : List Char) : List Char :=
  ((l.dropWhile jsWhitespace).reverse.dropWhile jsWhitespace).reverse

/-- `url.trim()` (line 72). -/
def jsTrim (s : String) : String := String.mk (trimChars s.toList)

/-- `String.prototype.toLowerCase`, modelled on the Basic Latin range (the
only range in which the validation constants of the source live). -/
def lowerChar (c : Char) : Char :=
  if 65 ≤ c.toNat ∧ c.toNat ≤ 90 then Char.ofNat (c.toNat + 32) else c

/-- `url.toLowerCase()` (line 76). -/
def jsToLowerCase (s : String) : String := String.mk (s.toList.map lowerChar)

/-- `s.includes(sub)`: `sub` occurs as a contiguous substring of `s`. -/
def jsIncludes (s sub : String) : Bool := decide (sub.toList <:+: s.toList)

/-- The regular-expression test `/^https?:\/\//i.test(url)` (line 82): `url`
starts, case-insensitively, with `http://` or `https://`. -/
def schemeRegexTest (url : String) : Bool :=
  decide ("http://".toList <+: url.toList.map lowerChar) ||
  decide ("https://".toList <+: url.toList.map lowerChar)

/-- `lowered.includes('localhost') || lowered.includes('127.0.0.1') ||
lowered.includes('::1')` (line 77). -/
def blacklistHit (lowered : String) : Bool :=
  jsIncludes lowered "localhost" || jsIncludes lowered "127.0.0.1" ||
  jsIncludes lowered "::1"

/-- Outcome of the two guard tests of the handler (spec: the Validation
Policy). -/
inductive ValidationDecision where
  | forbidden
  | unsupportedScheme
  | allowed
deriving DecidableEq

/-- The two inline rejection tests of the handler, lines 76-84, in source
order: the blacklist-substring test on the lowercased url first, then the
scheme test on the url itself. -/
def validate (url : String) : ValidationDecision :=
  if blacklistHit (jsToLowerCase url) then .forbidden
  else if !schemeRegexTest url then .unsupportedScheme
  else .allowed

/-- Result of the `await fetch(url, ...)` call (line 88): `node-fetch`
resolves with a status and a body text for every completed HTTP exchange
(any status code), and rejects — landing in the `catch` — on network-level
failure or timeout. -/
inductive FetchOutcome where
  | success (status : Nat) (text : String)
  | failure (detail : String)
deriving DecidableEq

/-- The literal appended when the body is cut (line 92). -/
def truncMarker : String := "\n\n...[truncated]"

/-- `text.length > 2000 ? text.slice(0, 2000) + '\n\n...[truncated]' : text`
(line 92). -/
def truncateBody (text : String) : String :=
  if text.length > 2000 then String.mk (text.toList.take 2000) ++ truncMarker
  else text

/-- A JSON scalar as emitted by the handlers (`res.json` object values). -/
inductive JsonVal where
  | str (s : String)
  | num (n : Nat)
deriving DecidableEq

/-- The JSON object bodies the public handler can emit. -/
inductive ResponseBody where
  | errJson (error : String)
  | errDetailJson (error detail : String)
  | fetchJson (status : Nat) (url body : String)
deriving DecidableEq

/-- The key/value pairs of the literal object passed to `res.json` (lines 73,
78, 83, 93, 95). -/
def ResponseBody.fields : ResponseBody → List (String × JsonVal)
  | .errJson e => [("error", .str e)]
  | .errDetailJson e d => [("error", .str e), ("detail", .str d)]
  | .fetchJson st u b => [("status", .num st), ("url", .str u), ("body", .str b)]

/-- An HTTP response of the public gateway: status code plus JSON body. -/
structure Response where
  status : Nat
  body : ResponseBody
deriving DecidableEq

/-- The `GET /api/fetch` handler, lines 71-97.  `queryUrl` is the raw `url`
query parameter (`none` when absent; `req.query.url || ''` maps absence to
the empty string).  `outcome` is the result of the outbound fetch; it is
consulted only on the path that reaches line 88. -/
def handleFetch (queryUrl : Option String) (outcome : FetchOutcome) : Response :=
  let url := jsTrim (queryUrl.getD "")
  if url = "" then ⟨400, .errJson "url parameter required"⟩
  else
    match validate url with
    | .forbidden => ⟨403, .errJson "local addresses are not allowed"⟩
    | .unsupportedScheme => ⟨400, .errJson "only http and https allowed"⟩
    | .allowed =>
      match outcome with
      | .success status text => ⟨200, .fetchJson status url (truncateBody text)⟩
      | .failure detail => ⟨500, .errDetailJson "fetch failed" detail⟩

/-- Whether the handler reaches the `await fetch(url, ...)` call at line 88,
i.e. survives the emptiness test and both rejection tests. -/
def fetchInvoked (queryUrl : Option String) : Bool :=
  let url := jsTrim (queryUrl.getD "")
  if url = "" then false
  else
    match validate url with
    | .allowed => true
    | _ => false

/-- `timeout: 5000` in the fetch options (line 88). -/
def fetchTimeoutMs : Nat := 5000

/-- `redirect: 'follow'` in the fetch options (line 88). -/
def fetchRedirectMode : String := "follow"

/-- The process environment variables the source reads (lines 28-29). -/
structure Env where
  flag : Option String
  port : Option Nat
deriving DecidableEq

/-- `const FLAG = process.env.FLAG || 'FLAG{ssrf_decimal_wrap}'` (line 28);
`||` falls back on the default when the variable is unset or empty.  The
value is computed once at startup and bound with `const`, hence immutable. -/
def FLAG (envFlag : Option String) : String :=
  match envFlag with
  | some f => if f = "" then "FLAG{ssrf_decimal_wrap}" else f
  | none => "FLAG{ssrf_decimal_wrap}"

/-- `const INTERNAL_PORT = 8000` (line 30): a literal, not read from the
environment. -/
def INTERNAL_PORT : Nat := 8000

/-- `const MAIN_PORT = process.env.PORT || 3000` (line 29). -/
def MAIN_PORT (env : Env) : Nat :=
  match env.port with
  | some p => p
  | none => 3000

/-- A TCP listener as configured by `app.listen`: port, and the bind host
(`none` means no host argument, i.e. all interfaces). -/
structure Listener where
  port : Nat
  host : Option String
deriving DecidableEq

/-- `internalApp.listen(INTERNAL_PORT, '127.0.0.1', ...)` (line 49). -/
def internalListener (_env : Env) : Listener := ⟨INTERNAL_PORT, some "127.0.0.1"⟩

/-- `app.listen(MAIN_PORT, ...)` (line 110): no host argument. -/
def publicListener (env : Env) : Listener := ⟨MAIN_PORT env, none⟩

/-- Modelled from the spec: the operating system's TCP connection semantics —
not code of this repository.  Per the spec's isolation contract, a listener
bound to the loopback address `127.0.0.1` establishes a connection only when
the source address is loopback; a listener with no bind host (wildcard)
accepts any source. -/
def connectionEstablishes (l : Listener) (sourceIsLoopback : Bool) : Bool :=
  match l.host with
  | some h => if h = "127.0.0.1" then sourceIsLoopback else true
  | none => true

/-- A plain-text response of the internal service. -/
structure PlainResponse where
  status : Nat
  contentType : String
  body : String
deriving DecidableEq

/-- The `GET /internal/flag` handler, lines 38-42: sets `Content-Type:
text/plain` and sends the flag line with Express's default status 200. -/
def internalFlagHandler (flag : String) : PlainResponse :=
  ⟨200, "text/plain", "admin-secret: " ++ flag ++ "\n"⟩

/-- The `/internal/flag` response as a function of the process environment:
the handler closes over the startup-time `FLAG` constant. -/
def internalFlagResponse (env : Env) : PlainResponse :=
  internalFlagHandler (FLAG env.flag)

/-- An occurrence of `p` in `a ++ b` either starts inside `a` (so `p`'s head
is an element of `a`) or lies wholly inside `b`. -/
lemma headSplit {α : Type} (a b p : List α) (c : α) (hc : p.head? = some c)
    (h : p <:+: a ++ b) : c ∈ a ∨ p <:+: b := by
  obtain ⟨s, t, heq⟩ := h
  by_cases hs : a.length ≤ s.length
  · right
    have hb : b = List.drop a.length (a ++ b) := by simp
    rw [← heq, List.append_assoc, List.drop_append_of_le_length hs] at hb
    exact ⟨s.drop a.length, t, by rw [hb, List.append_assoc]⟩
  · left
    push_neg at hs
    have hget : (s ++ (p ++ t))[s.length]? = some c := by
      rw [List.getElem?_append_right (le_refl s.length), Nat.sub_self,
        ← List.head?_eq_getElem?]
      cases p with
      | nil => simp at hc
      | cons x xs => simpa using hc
    rw [← List.append_assoc, heq, List.getElem?_append_left hs] at hget
    obtain ⟨hlt, hEq⟩ := List.getElem?_eq_some.mp hget
    exact hEq ▸ List.getElem_mem hlt

/-- Mirror image of `headSplit`: the occurrence either lies wholly inside `a`
or `p`'s last element is an element of `b`. -/
lemma lastSplit {α : Type} (a b p : List α) (c : α) (hc : p.getLast? = some c)
    (h : p <:+: a ++ b) : p <:+: a ∨ c ∈ b := by
  have h' : p.reverse <:+: b.reverse ++ a.reverse := by
    rw [← List.reverse_append]
    exact List.reverse_infix.mpr h
  have hc' : p.reverse.head? = some c := by rw [List.head?_reverse]; exact hc
  rcases headSplit _ _ _ _ hc' h' with hmem | hinf
  · exact Or.inr (List.mem_reverse.mp hmem)
  · refine Or.inl ?_
    have := List.reverse_infix.mpr hinf
    simpa using this

/-- `trimChars` splits the input into an all-whitespace head, the trimmed
core, and an all-whitespace tail. -/
lemma trimChars_decomp (l : List Char) :
    ∃ w₁ w₂, l = w₁ ++ trimChars l ++ w₂ ∧ (∀ c ∈ w₁, jsWhitespace c = true) ∧
      (∀ c ∈ w₂, jsWhitespace c = true) := by
  refine ⟨l.takeWhile jsWhitespace,
    ((l.dropWhile jsWhitespace).reverse.takeWhile jsWhitespace).reverse, ?_, ?_, ?_⟩
  · have h2 : l.dropWhile jsWhitespace = trimChars l ++
        ((l.dropWhile jsWhitespace).reverse.takeWhile jsWhitespace).reverse := by
      calc l.dropWhile jsWhitespace
          = (l.dropWhile jsWhitespace).reverse.reverse := by
            rw [List.reverse_reverse]
        _ = ((l.dropWhile jsWhitespace).reverse.takeWhile jsWhitespace ++
              (l.dropWhile jsWhitespace).reverse.dropWhile jsWhitespace).reverse := by
            rw [List.takeWhile_append_dropWhile]
        _ = ((l.dropWhile jsWhitespace).reverse.dropWhile jsWhitespace).reverse ++
              ((l.dropWhile jsWhitespace).reverse.takeWhile jsWhitespace).reverse := by
            rw [List.reverse_append]
        _ = _ := rfl
    conv_lhs => rw [← List.takeWhile_append_dropWhile jsWhitespace l, h2]
    rw [List.append_assoc]
  · intro c hc
    exact List.mem_takeWhile_imp hc
  · intro c hc
    rw [List.mem_reverse] at hc
    exact List.mem_takeWhile_imp hc

/-- Whitespace characters are untouched by lowercasing. -/
lemma lowerChar_of_ws (c : Char) (h : jsWhitespace c = true) : lowerChar c = c := by
  have hn : ¬ (65 ≤ c.toNat ∧ c.toNat ≤ 90) := by
    simp only [jsWhitespace, Bool.or_eq_true, decide_eq_true_eq,
      Bool.and_eq_true] at h
    omega
  rw [lowerChar, if_neg hn]

lemma jsIncludes_iff (s sub : String) :
    jsIncludes s sub = true ↔ sub.toList <:+: s.toList := by
  simp [jsIncludes]

lemma blacklistHit_iff (s : String) :
    blacklistHit s = true ↔
      ("localhost".toList <:+: s.toList ∨ "127.0.0.1".toList <:+: s.toList ∨
        "::1".toList <:+: s.toList) := by
  simp [blacklistHit, jsIncludes, Bool.or_eq_true, or_assoc]

/-- A non-whitespace pattern occurring in the lowercased url still occurs in
the lowercased trimmed url. -/
lemma sub_trim_lower (p : List Char) (l : List Char) (hne : p ≠ [])
    (hws : ∀ c ∈ p, jsWhitespace c = false)
    (h : p <:+: l.map lowerChar) : p <:+: (trimChars l).map lowerChar := by
  obtain ⟨w₁, w₂, hdec, hw₁, hw₂⟩ := trimChars_decomp l
  have hmapw₁ : w₁.map lowerChar = w₁ := by
    rw [List.map_congr_left fun c hc => lowerChar_of_ws c (hw₁ c hc), List.map_id']
  have hmapw₂ : w₂.map lowerChar = w₂ := by
    rw [List.map_congr_left fun c hc => lowerChar_of_ws c (hw₂ c hc), List.map_id']
  rw [hdec, List.map_append, List.map_append, hmapw₁, hmapw₂, List.append_assoc] at h
  have hhead : p.head? = some (p.head hne) := List.head?_eq_head hne
  rcases headSplit _ _ _ _ hhead h with hmem | h'
  · have := hws _ (List.head_mem hne)
    rw [hw₁ _ hmem] at this
    simp at this
  · have hlast : p.getLast? = some (p.getLast hne) := List.getLast?_eq_getLast p hne
    rcases lastSplit _ _ _ _ hlast h' with h'' | hmem
    · exact h''
    · have := hws _ (List.getLast_mem hne)
      rw [hw₂ _ hmem] at this
      simp at this

/-- Substring survival through the handler's trim: a hit on the lowercased
raw url is still a hit on the lowercased trimmed url, and the trimmed url is
nonempty. -/
lemma hit_trim (url p : String) (hne : p.toList ≠ [])
    (hws : ∀ c ∈ p.toList, jsWhitespace c = false)
    (h : jsIncludes (jsToLowerCase url) p = true) :
    jsIncludes (jsToLowerCase (jsTrim url)) p = true ∧ jsTrim url ≠ "" := by
  rw [jsIncludes_iff] at h
  have h' : p.toList <:+: (trimChars url.toList).map lowerChar :=
    sub_trim_lower p.toList url.toList hne hws h
  constructor
  · rw [jsIncludes_iff]
    exact h'
  · intro hcon
    have hnil : trimChars url.toList = [] := by
      have : (jsTrim url).toList = ("" : String).toList := by rw [hcon]
      simpa [jsTrim] using this
    rw [hnil] at h'
    simp only [List.map_nil] at h'
    have := List.IsInfix.length_le h'
    have hlen : p.toList.length = 0 := by simpa using this
    exact hne (List.eq_nil_of_length_eq_zero hlen)

/-- A blacklist hit on the raw url survives the handler's trim. -/
lemma blacklistHit_trim (url : String) (h : blacklistHit (jsToLowerCase url) = true) :
    blacklistHit (jsToLowerCase (jsTrim url)) = true ∧ jsTrim url ≠ "" := by
  simp only [blacklistHit, Bool.or_eq_true] at h ⊢
  rcases h with (h | h) | h
  · obtain ⟨h1, h2⟩ := hit_trim url "localhost" (by decide) (by decide) h
    exact ⟨Or.inl (Or.inl h1), h2⟩
  · obtain ⟨h1, h2⟩ := hit_trim url "127.0.0.1" (by decide) (by decide) h
    exact ⟨Or.inl (Or.inr h1), h2⟩
  · obtain ⟨h1, h2⟩ := hit_trim url "::1" (by decide) (by decide) h
    exact ⟨Or.inr h1, h2⟩

/-- The handler's 403 branch, reached whenever the lowercased raw url has a
blacklisted substring. -/
lemma handleFetch_of_hit (url : String) (o : FetchOutcome)
    (h : blacklistHit (jsToLowerCase url) = true) :
    handleFetch (some url) o = ⟨403, .errJson "local addresses are not allowed"⟩ := by
  obtain ⟨h1, h2⟩ := blacklistHit_trim url h
  have hv : validate (jsTrim url) = .forbidden := by simp [validate, h1]
  simp only [handleFetch, Option.getD_some]
  rw [if_neg h2, hv]

/-- `fetchInvoked` holds exactly when the trimmed url is nonempty and both
guard tests pass. -/
lemma fetchInvoked_iff (q : Option String) :
    fetchInvoked q = true ↔
      jsTrim (q.getD "") ≠ "" ∧ validate (jsTrim (q.getD "")) = .allowed := by
  simp only [fetchInvoked]
  by_cases h : jsTrim (q.getD "") = ""
  · simp [h]
  · rw [if_neg h]
    cases hv : validate (jsTrim (q.getD "")) <;> simp [h, hv]

/-- Success branch of the handler (line 93). -/
lemma handleFetch_success (q : Option String) (st : Nat) (text : String)
    (hne : jsTrim (q.getD "") ≠ "")
    (hv : validate (jsTrim (q.getD "")) = .allowed) :
    handleFetch q (.success st text) =
      ⟨200, .fetchJson st (jsTrim (q.getD "")) (truncateBody text)⟩ := by
  simp only [handleFetch]
  rw [if_neg hne, hv]

/-- Failure branch of the handler (line 95). -/
lemma handleFetch_failure (q : Option String) (d : String)
    (hne : jsTrim (q.getD "") ≠ "")
    (hv : validate (jsTrim (q.getD "")) = .allowed) :
    handleFetch q (.failure d) = ⟨500, .errDetailJson "fetch failed" d⟩ := by
  simp only [handleFetch]
  rw [if_neg hne, hv]

/-- The characters a decimal, octal, or hex IPv4 host notation is written
in. -/
def ipChars : List Char := "0123456789abcdefx.".toList

lemma lowerChar_ipChar (c : Char) (hc : c ∈ ipChars) : lowerChar c = c := by
  fin_cases hc <;> decide

/-- C1: every url whose lowercased form contains `localhost`, `127.0.0.1`,
or `::1` is rejected by the Validation Policy as forbidden, and
`GET /api/fetch` with that url answers 403 with body
`{error: "local addresses are not allowed"}` regardless of any fetch
outcome. -/
theorem C1_blacklisted_url_forbidden (url : String)
    (h : jsIncludes (jsToLowerCase url) "localhost" = true ∨
      jsIncludes (jsToLowerCase url) "127.0.0.1" = true ∨
      jsIncludes (jsToLowerCase url) "::1" = true) :
    validate url = .forbidden ∧
      ∀ o, handleFetch (some url) o =
        ⟨403, .errJson "local addresses are not allowed"⟩ := by
  have hhit : blacklistHit (jsToLowerCase url) = true := by
    simp only [blacklistHit, Bool.or_eq_true]
    tauto
  exact ⟨by simp [validate, hhit], fun o => handleFetch_of_hit url o hhit⟩

theorem C1_witness :
    jsIncludes (jsToLowerCase "http://LocalHost:8000/x") "localhost" = true ∧
      validate "http://LocalHost:8000/x" = .forbidden ∧
      handleFetch (some "http://LocalHost:8000/x") (.success 200 "hi") =
        ⟨403, .errJson "local addresses are not allowed"⟩ :=
  ⟨by decide,
    (C1_blacklisted_url_forbidden "http://LocalHost:8000/x" (Or.inl (by decide))).1,
    (C1_blacklisted_url_forbidden "http://LocalHost:8000/x" (Or.inl (by decide))).2 _⟩

/-- C2: a url whose host is written in decimal, octal, or hex IPv4 notation
(characters from `ipChars`, no literal `127.0.0.1` inside) passes validation:
the blacklist is a syntactic substring check with no hostname resolution or
numeric normalization, so all three example encodings of 127.0.0.1 are
allowed. -/
theorem C2_numeric_ip_bypass (h : String)
    (hchars : ∀ c ∈ h.toList, c ∈ ipChars)
    (h127 : ¬ ("127.0.0.1".toList <:+: h.toList)) :
    validate ("http://" ++ h) = .allowed ∧
      validate "http://2130706433/" = .allowed ∧
      validate "http://0177.0.0.1/" = .allowed ∧
      validate "http://0x7f.0x0.0x0.0x1/" = .allowed := by
  refine ⟨?_, by decide, by decide, by decide⟩
  have hl : ("http://" ++ h).toList = "http://".toList ++ h.toList := rfl
  have hmap : ("http://" ++ h).toList.map lowerChar = "http://".toList ++ h.toList := by
    rw [hl, List.map_append]
    have h1 : "http://".toList.map lowerChar = "http://".toList := by decide
    have h2 : h.toList.map lowerChar = h.toList := by
      rw [List.map_congr_left fun c hc => lowerChar_ipChar c (hchars c hc),
        List.map_id']
    rw [h1, h2]
  have hbl : blacklistHit (jsToLowerCase ("http://" ++ h)) = false := by
    rw [← Bool.not_eq_true, blacklistHit_iff]
    push_neg
    have htl : (jsToLowerCase ("http://" ++ h)).toList =
        "http://".toList ++ h.toList := hmap
    rw [htl]
    refine ⟨?_, ?_, ?_⟩
    · intro hin
      have hsub := hin.subset
      have hl' : 'l' ∈ "http://".toList ++ h.toList := hsub (by decide)
      rcases List.mem_append.mp hl' with hmem | hmem
      · exact absurd hmem (by decide)
      · exact absurd (hchars _ hmem) (by decide)
    · intro hin
      have hhead : ("127.0.0.1".toList : List Char).head? = some '1' := by decide
      rcases headSplit _ _ _ '1' hhead hin with hmem | hinf
      · exact absurd hmem (by decide)
      · exact h127 hinf
    · intro hin
      have hcount := hin.sublist.count_le ':'
      rw [List.count_append] at hcount
      have hc1 : List.count ':' ("::1".toList : List Char) = 2 := by decide
      have hc2 : List.count ':' ("http://".toList : List Char) = 1 := by decide
      have hc3 : List.count ':' h.toList = 0 :=
        List.count_eq_zero.mpr fun hmem => absurd (hchars _ hmem) (by decide)
      omega
  have hsch : schemeRegexTest ("http://" ++ h) = true := by
    simp only [schemeRegexTest, Bool.or_eq_true, decide_eq_true_eq]
    refine Or.inl ?_
    rw [hmap]
    exact List.prefix_append _ _
  simp [validate, hbl, hsch]

theorem C2_witness :
    (∀ c ∈ ("2130706433" : String).toList, c ∈ ipChars) ∧
      validate ("http://" ++ "2130706433") = .allowed :=
  ⟨by decide, (C2_numeric_ip_bypass "2130706433" (by decide) (by decide)).1⟩

/-- C3: the outbound fetch is reached only for urls passing both guard
tests; when either guard rejects (or the parameter is empty), the response
is computed without consulting the fetch outcome at all. -/
theorem C3_fetch_gated_by_validation (q : Option String) :
    (fetchInvoked q = true → validate (jsTrim (q.getD "")) = .allowed) ∧
      (validate (jsTrim (q.getD "")) ≠ .allowed → fetchInvoked q = false) ∧
      (fetchInvoked q = false →
        ∀ o₁ o₂, handleFetch q o₁ = handleFetch q o₂) := by
  refine ⟨fun h => ((fetchInvoked_iff q).mp h).2, ?_, ?_⟩
  · intro hv
    rw [← Bool.not_eq_true]
    intro hcon
    exact hv ((fetchInvoked_iff q).mp hcon).2
  · intro hf o₁ o₂
    simp only [handleFetch]
    by_cases h : jsTrim (q.getD "") = ""
    · rw [if_pos h, if_pos h]
    · rw [if_neg h, if_neg h]
      have hv : validate (jsTrim (q.getD "")) ≠ .allowed := by
        intro hv
        have := (fetchInvoked_iff q).mpr ⟨h, hv⟩
        rw [hf] at this
        exact Bool.false_ne_true this
      cases hvv : validate (jsTrim (q.getD ""))
      · rfl
      · rfl
      · exact absurd hvv hv

theorem C3_witness :
    fetchInvoked (some "http://127.0.0.1:8000/internal/flag") = false ∧
      handleFetch (some "http://127.0.0.1:8000/internal/flag") (.success 200 "hi") =
        handleFetch (some "http://127.0.0.1:8000/internal/flag") (.failure "err") :=
  ⟨by decide,
    (C3_fetch_gated_by_validation (some "http://127.0.0.1:8000/internal/flag")).2.2
      (by decide) _ _⟩

/-- C7: the blacklist test runs before the scheme test, so a url that both
contains a blacklisted substring and lacks an http(s) prefix is answered
403 forbidden, never 400 unsupported-scheme. -/
theorem C7_blacklist_checked_first (url : String)
    (hhit : blacklistHit (jsToLowerCase url) = true)
    (_hsch : schemeRegexTest url = false) :
    validate url = .forbidden ∧ validate url ≠ .unsupportedScheme ∧
      ∀ o, handleFetch (some url) o =
        ⟨403, .errJson "local addresses are not allowed"⟩ :=
  ⟨by simp [validate, hhit], by simp [validate, hhit],
    fun o => handleFetch_of_hit url o hhit⟩

theorem C7_witness :
    blacklistHit (jsToLowerCase "ftp://localhost/") = true ∧
      schemeRegexTest "ftp://localhost/" = false ∧
      handleFetch (some "ftp://localhost/") (.failure "never-fetched") =
        ⟨403, .errJson "local addresses are not allowed"⟩ :=
  ⟨by decide, by decide,
    (C7_blacklist_checked_first "ftp://localhost/" (by decide) (by decide)).2.2 _⟩

/-- C4: bodies longer than 2000 characters are cut to their first 2000
characters plus the fixed marker; shorter bodies pass unchanged; hence no
returned body ever exceeds 2000 characters plus the marker length. -/
theorem C4_truncation_bound (text : String) :
    (truncateBody text).length ≤ 2000 + truncMarker.length ∧
      (text.length > 2000 →
        (truncateBody text).toList = text.toList.take 2000 ++ truncMarker.toList ∧
          (truncateBody text).length = 2000 + truncMarker.length) ∧
      (text.length ≤ 2000 → truncateBody text = text) := by
  have hlist : text.length = text.toList.length := rfl
  by_cases h : text.length > 2000
  · have heq : truncateBody text = String.mk (text.toList.take 2000) ++ truncMarker := by
      rw [truncateBody, if_pos h]
    have htake : (text.toList.take 2000).length = 2000 := by
      rw [List.length_take]
      omega
    have hlen : (truncateBody text).length = 2000 + truncMarker.length := by
      rw [heq, String.length_append]
      have : (String.mk (text.toList.take 2000)).length = 2000 := htake
      rw [this]
    refine ⟨le_of_eq hlen, fun _ => ⟨?_, hlen⟩, fun hc => absurd h (by omega)⟩
    rw [heq]
    rfl
  · have heq : truncateBody text = text := by
      rw [truncateBody, if_neg h]
    refine ⟨?_, fun hc => absurd hc h, fun _ => heq⟩
    rw [heq]
    omega

theorem C4_witness :
    (truncateBody (String.mk (List.replicate 2500 'a'))).length =
        2000 + truncMarker.length ∧
      truncateBody (String.mk (List.replicate 1500 'b')) =
        String.mk (List.replicate 1500 'b') :=
  ⟨((C4_truncation_bound (String.mk (List.replicate 2500 'a'))).2.1
      (by show (List.replicate 2500 'a').length > 2000; rw [List.length_replicate]; omega)).2,
    (C4_truncation_bound (String.mk (List.replicate 1500 'b'))).2.2
      (by show (List.replicate 1500 'b').length ≤ 2000; rw [List.length_replicate]; omega)⟩

/-- C5 (counterexample): a concrete successful fetch response carries only
the keys `status`, `url`, `body` — there is no `truncated` field, so the
claim that every successful result contains a boolean `truncated` field is
false on the code. -/
theorem C5_counterexample :
    (handleFetch (some "http://example.com/") (.success 200 "hi")).status = 200 ∧
      (handleFetch (some "http://example.com/")
          (.success 200 "hi")).body.fields.map Prod.fst = ["status", "url", "body"] ∧
      (handleFetch (some "http://example.com/")
          (.success 200 "hi")).body.fields.lookup "truncated" = none := by
  decide

/-- C5 (amended): every successful fetch response is the JSON object with
exactly the fields `status`, `url`, `body` (the body truncated by
`truncateBody`); no `truncated` field is emitted. -/
theorem C5_no_truncated_field (url : String) (st : Nat) (text : String)
    (h : validate (jsTrim url) = .allowed) :
    (handleFetch (some url) (.success st text)).body =
        .fetchJson st (jsTrim url) (truncateBody text) ∧
      (handleFetch (some url) (.success st text)).body.fields.map Prod.fst =
        ["status", "url", "body"] ∧
      (handleFetch (some url) (.success st text)).body.fields.lookup "truncated" =
        none := by
  have hne : jsTrim url ≠ "" := by
    intro hcon
    rw [hcon] at h
    exact absurd h (by decide)
  have hh := handleFetch_success (some url) st text hne h
  rw [hh]
  exact ⟨rfl, rfl, rfl⟩

theorem C5_witness :
    (handleFetch (some "http://example.org/") (.success 201 "abc")).body =
      .fetchJson 201 (jsTrim "http://example.org/") (truncateBody "abc") :=
  (C5_no_truncated_field "http://example.org/" 201 "abc" (by decide)).1

/-- C6: the internal listener is bound to port 8000 and host `127.0.0.1`
for every environment (the port is a literal, not configurable), it is
never bound to the wildcard or a public interface, and under the spec's
connection model a non-loopback source never establishes a connection. -/
theorem C6_internal_bind_loopback (env : Env) (src : Bool) :
    internalListener env = ⟨8000, some "127.0.0.1"⟩ ∧
      (internalListener env).host ≠ none ∧
      (internalListener env).host ≠ some "0.0.0.0" ∧
      (src = false → connectionEstablishes (internalListener env) src = false) := by
  refine ⟨rfl, ?_, ?_, ?_⟩
  · intro hcon
    simp [internalListener] at hcon
  · intro hcon
    simp [internalListener] at hcon
  · intro hsrc
    rw [hsrc]
    rfl

theorem C6_witness :
    connectionEstablishes (internalListener ⟨none, none⟩) false = false :=
  (C6_internal_bind_loopback ⟨none, none⟩ false).2.2.2 rfl

/-- C8: once a url is fetched, the gateway answers
500 `{error: "fetch failed", detail}` exactly for a rejected fetch promise
(network failure / 5000 ms timeout), while every resolved response — any
upstream status — yields 200 with the upstream status inside the body; the
timeout option is 5000 ms. -/
theorem C8_error_iff_fetch_failure (url : String) (o : FetchOutcome)
    (h : fetchInvoked (some url) = true) :
    ((handleFetch (some url) o).status = 500 ↔ ∃ d, o = .failure d) ∧
      (∀ d, o = .failure d →
        handleFetch (some url) o = ⟨500, .errDetailJson "fetch failed" d⟩) ∧
      (∀ st text, o = .success st text →
        handleFetch (some url) o =
          ⟨200, .fetchJson st (jsTrim url) (truncateBody text)⟩) ∧
      fetchTimeoutMs = 5000 ∧ fetchRedirectMode = "follow" := by
  obtain ⟨hne, hv⟩ := (fetchInvoked_iff (some url)).mp h
  cases o with
  | success st text =>
    have hh := handleFetch_success (some url) st text hne hv
    refine ⟨?_, ?_, ?_, rfl, rfl⟩
    · rw [hh]
      simp
    · intro d hd
      exact absurd hd (by simp)
    · intro st' text' hd
      obtain ⟨h1, h2⟩ := FetchOutcome.success.inj hd
      rw [← h1, ← h2]
      exact hh
  | failure d =>
    have hh := handleFetch_failure (some url) d hne hv
    refine ⟨?_, ?_, ?_, rfl, rfl⟩
    · rw [hh]
      simp
    · intro d' hd
      rw [FetchOutcome.failure.inj hd] at hh ⊢
      exact hh
    · intro st' text' hd
      exact absurd hd (by simp)

theorem C8_witness :
    handleFetch (some "http://example.com/a") (.failure "connect ECONNREFUSED") =
        ⟨500, .errDetailJson "fetch failed" "connect ECONNREFUSED"⟩ ∧
      handleFetch (some "http://example.com/a") (.success 404 "nope") =
        ⟨200, .fetchJson 404 (jsTrim "http://example.com/a") (truncateBody "nope")⟩ :=
  ⟨(C8_error_iff_fetch_failure "http://example.com/a" (.failure "connect ECONNREFUSED")
      (by decide)).2.1 "connect ECONNREFUSED" rfl,
    (C8_error_iff_fetch_failure "http://example.com/a" (.success 404 "nope")
      (by decide)).2.2.1 404 "nope" rfl⟩

/-- C9: `GET /internal/flag` answers 200 plain text
`admin-secret: <flag>\n`, where the flag is the startup-time constant read
from the `FLAG` environment variable, defaulting to the placeholder when
unset; the embedding is a pure function of the startup environment, so the
value never changes afterwards. -/
theorem C9_internal_flag_response (env : Env) :
    internalFlagResponse env =
        ⟨200, "text/plain", "admin-secret: " ++ FLAG env.flag ++ "\n"⟩ ∧
      (env.flag = none → FLAG env.flag = "FLAG{ssrf_decimal_wrap}") :=
  ⟨rfl, fun h => by rw [h]; rfl⟩

theorem C9_witness :
    FLAG (Env.mk none none).flag = "FLAG{ssrf_decimal_wrap}" ∧
      internalFlagResponse ⟨none, none⟩ =
        ⟨200, "text/plain", "admin-secret: " ++ FLAG none ++ "\n"⟩ :=
  ⟨(C9_internal_flag_response ⟨none, none⟩).2 rfl,
    (C9_internal_flag_response ⟨none, none⟩).1⟩

/-- C10: a url parameter made only of whitespace is trimmed to the empty
string, so the handler answers 400 `{error: "url parameter required"}`
exactly as for a missing parameter, and the fetch is never reached. -/
theorem C10_whitespace_only_param (s : String)
    (h : ∀ c ∈ s.toList, jsWhitespace c = true) :
    (∀ o, handleFetch (some s) o = ⟨400, .errJson "url parameter required"⟩) ∧
      (∀ o, handleFetch (some s) o = handleFetch none o) ∧
      fetchInvoked (some s) = false := by
  have htrim : jsTrim s = "" := by
    show String.mk (trimChars s.toList) = ""
    have h1 : s.toList.dropWhile jsWhitespace = [] :=
      List.dropWhile_eq_nil_iff.mpr h
    rw [trimChars, h1]
    rfl
  have hmiss : ∀ o, handleFetch (some s) o = ⟨400, .errJson "url parameter required"⟩ := by
    intro o
    simp only [handleFetch, Option.getD_some]
    rw [if_pos htrim]
  refine ⟨hmiss, fun o => ?_, ?_⟩
  · rw [hmiss o]
    rfl
  · simp only [fetchInvoked, Option.getD_some]
    rw [if_pos htrim]

theorem C10_witness :
    handleFetch (some " \t\n ") (.success 200 "hi") =
        ⟨400, .errJson "url parameter required"⟩ ∧
      handleFetch (some " \t\n ") (.failure "x") = handleFetch none (.failure "x") ∧
      fetchInvoked (some " \t\n ") = false :=
  ⟨(C10_whitespace_only_param " \t\n " (by decide)).1 _,
    (C10_whitespace_only_param " \t\n " (by decide)).2.1 _,
    (C10_whitespace_only_param " \t\n " (by decide)).2.2⟩
